import Mathlib

/-!
Verification of the Simple Room Reservation API (Node/Express) against its
natural-language specification.

The development shallowly embeds the repository's reservation logic:

* `src/utils/time_helpers.js` — `parseIsoToMs`, `normalizeToMinute`,
  `isValidInterval`, `isInPast`, `intervalsOverlap`, `isTooLong`;
* `src/routes/reservations_router.js` together with the in-memory store
  `room_reservations_storage.js` — `loadRoom`, the POST (create), GET (list)
  and DELETE handlers, `getRoomById`, `addReservationToRoom`,
  `removeReservationFromRoom`, `getNextReservationId`, `initRooms`/`resetData`;
* `src/app.js` — the monolithic variant of the same handlers, whose
  `loadRoom` guard differs (range check instead of lookup-failure check).

JavaScript `Date.parse` is modelled as an oracle `String → Option Int`
(`none` = `NaN`); `Date.now()` is an explicit `nowMs` parameter. Instants are
`Int` milliseconds. `Number(text)` applied to a route parameter is modelled by
its result, an `Option ℚ` (`none` for `NaN`/non-finite). Request body fields
are modelled as JavaScript values with their truthiness.
-/

/-- A JavaScript value as it can appear in a request body field, with the
cases relevant to the handlers: absent, `null`, a boolean, a number, or a
string. -/
inductive JsValue where
  | absent
  | null
  | bool (b : Bool)
  | num (n : Int)
  | str (s : String)
deriving Repr, DecidableEq

/-- JavaScript truthiness of a body field, as used by `if (!start || !end)`:
`undefined`, `null`, `false`, `0` and `""` are falsy. -/
def JsValue.truthy : JsValue → Bool
  | .absent => false
  | .null => false
  | .bool b => b
  | .num n => n != 0
  | .str s => s != ""

/-- `parseIsoToMs` from `src/utils/time_helpers.js`: a non-string input gives
`NaN` (`none`); a string is handed to `Date.parse`, modelled by the oracle
`parseDate`. -/
def parseIsoToMs (parseDate : String → Option Int) : JsValue → Option Int
  | .str s => parseDate s
  | _ => none

/-- `normalizeToMinute` from `src/utils/time_helpers.js`:
`Math.floor(ms / 60000) * 60000` — floor division, hence `Int.fdiv`. -/
def normalizeToMinute (ms : Int) : Int :=
  Int.fdiv ms 60000 * 60000

/-- `isValidInterval` from `src/utils/time_helpers.js`: both operands must be
finite numbers (`some`) and `endMs > startMs`. -/
def isValidInterval : Option Int → Option Int → Bool
  | some startMs, some endMs => endMs > startMs
  | _, _ => false

/-- `isInPast` from `src/utils/time_helpers.js`: the start is in the past
when it is strictly before the minute-truncated current instant. -/
def isInPast (startMs nowMs : Int) : Bool :=
  startMs < normalizeToMinute nowMs

/-- `intervalsOverlap` from `src/utils/time_helpers.js`: half-open intervals
`[aStart, aEnd)` and `[bStart, bEnd)` overlap iff
`aStart < bEnd && bStart < aEnd`. -/
def intervalsOverlap (aStart aEnd bStart bEnd : Int) : Bool :=
  aStart < bEnd && bStart < aEnd

/-- `isTooLong` from `src/utils/time_helpers.js`: the interval exceeds the
12-hour ceiling, `endMs - startMs > 12 * 3600000`. Exported by the module but
never imported by any handler. -/
def isTooLong (startMs endMs : Int) : Bool :=
  endMs - startMs > 12 * 3600000

/-- A stored reservation (`{ id, startMs, endMs, ... }`); the derived display
strings and the creation timestamp carry no logic and are omitted. -/
structure Reservation where
  id : Nat
  startMs : Int
  endMs : Int
deriving Repr, DecidableEq

/-- A room: fixed integer id, display name, and its owned reservation list. -/
structure Room where
  id : Nat
  name : String
  reservations : List Reservation
deriving Repr, DecidableEq

/-- The in-memory store of `room_reservations_storage.js` (also the
module-level state of `app.js`): the room list and the global reservation-id
counter. -/
structure Store where
  rooms : List Room
  nextReservationId : Nat
deriving Repr, DecidableEq

/-- `initRooms`: ten rooms with ids 1..10, empty reservation lists, counter
reset to 1. Also the effect of `resetData`. -/
def initRooms : Store where
  rooms := (List.range 10).map fun i =>
    { id := i + 1, name := "Room " ++ toString (i + 1), reservations := [] }
  nextReservationId := 1

/-- `getRoomById` from `room_reservations_storage.js`: first room whose
integer id equals the numeric room id (`r.id === Number(roomId)`). -/
def getRoomById (rooms : List Room) (q : ℚ) : Option Room :=
  rooms.find? fun r => (r.id : ℚ) == q

/-- Replace the first room matching the numeric id by its image under `f` —
the functional rendering of mutating the room object that `getRoomById`
returned. -/
def updateRoomList (rooms : List Room) (q : ℚ) (f : Room → Room) : List Room :=
  match rooms with
  | [] => []
  | r :: rest =>
    if (r.id : ℚ) == q then f r :: rest else r :: updateRoomList rest q f

/-- `removeReservationFromRoom`: `findIndex` on `r.id === Number(reservationId)`
followed by `splice` — remove and return the first matching reservation,
or `none` leaving the list as it was. -/
def removeFirst (resvs : List Reservation) (rq : ℚ) :
    Option Reservation × List Reservation :=
  match resvs with
  | [] => (none, [])
  | r :: rest =>
    if (r.id : ℚ) == rq then (some r, rest)
    else
      let tail := removeFirst rest rq
      (tail.1, r :: tail.2)

/-- Insert a reservation into a start-ascending list, keeping existing
elements first on ties (the stable ascending sort of the GET handler's
`sort((a, b) => a.startMs - b.startMs)`). -/
def insertByStart (x : Reservation) : List Reservation → List Reservation
  | [] => [x]
  | y :: ys =>
    if x.startMs < y.startMs then x :: y :: ys else y :: insertByStart x ys

/-- The GET handler's view of a room: reservations sorted by ascending
`startMs`. -/
def sortByStart (l : List Reservation) : List Reservation :=
  l.foldr insertByStart []

/-- Outcome of a create request, one constructor per distinct response branch
of the POST handler (status and message): 404 room-not-found, 400 missing
field, 400 pre-truncation invalid times, 400 invalid after normalization,
400 past start, 409 conflict (carrying the conflicting reservation), 201
created, and the generic 500 of the error middleware. -/
inductive CreateResult where
  | roomNotFound
  | missingField
  | invalidTimes
  | invalidAfterNormalization
  | pastStart
  | conflict (r : Reservation)
  | created (r : Reservation)
  | internalError
deriving Repr, DecidableEq

/-- Whether a create outcome is the 201 success. -/
def CreateResult.isCreated : CreateResult → Bool
  | .created _ => true
  | _ => false

/-- Outcome of a delete request, one constructor per distinct response branch
of the DELETE handler. -/
inductive DeleteResult where
  | roomNotFound
  | invalidReservationId
  | reservationNotFound
  | deleted (r : Reservation)
  | internalError
deriving Repr, DecidableEq

/-- Whether a delete outcome is the success branch. -/
def DeleteResult.isDeleted : DeleteResult → Bool
  | .deleted _ => true
  | _ => false

/-- Outcome of a list (GET) request. -/
inductive ListResult where
  | roomNotFound
  | ok (reservations : List Reservation)
  | internalError
deriving Repr, DecidableEq

/-- The POST handler of `src/routes/reservations_router.js` (behind its
`loadRoom` middleware, which 404s when `Number(roomId)` is not finite or
`getRoomById` finds no room): missing-field check, pre-truncation
`isValidInterval`, minute normalization, post-truncation `isValidInterval`,
`isInPast`, conflict scan with `intervalsOverlap`, then id allocation
(`getNextReservationId`) and `addReservationToRoom`. Returns the response
outcome and the store after the request. -/
def createReservation (parseDate : String → Option Int) (nowMs : Int)
    (s : Store) (roomIdNum : Option ℚ) (start fin : JsValue) :
    CreateResult × Store :=
  match roomIdNum with
  | none => (.roomNotFound, s)
  | some q =>
    match getRoomById s.rooms q with
    | none => (.roomNotFound, s)
    | some room =>
      if !start.truthy || !fin.truthy then (.missingField, s)
      else if !isValidInterval (parseIsoToMs parseDate start)
          (parseIsoToMs parseDate fin) then (.invalidTimes, s)
      else
        match parseIsoToMs parseDate start, parseIsoToMs parseDate fin with
        | some rawS, some rawE =>
          if !isValidInterval (some (normalizeToMinute rawS))
              (some (normalizeToMinute rawE)) then
            (.invalidAfterNormalization, s)
          else if isInPast (normalizeToMinute rawS) nowMs then (.pastStart, s)
          else
            match room.reservations.find?
                (fun r => intervalsOverlap (normalizeToMinute rawS)
                  (normalizeToMinute rawE) r.startMs r.endMs) with
            | some c => (.conflict c, s)
            | none =>
              (.created
                 { id := s.nextReservationId,
                   startMs := normalizeToMinute rawS,
                   endMs := normalizeToMinute rawE },
               { rooms := updateRoomList s.rooms q
                   (fun rm =>
                     { rm with reservations := rm.reservations ++
                         [{ id := s.nextReservationId,
                            startMs := normalizeToMinute rawS,
                            endMs := normalizeToMinute rawE }] }),
                 nextReservationId := s.nextReservationId + 1 })
        | _, _ => (.invalidTimes, s)

/-- The GET handler of `src/routes/reservations_router.js`: the room's
reservations sorted by ascending start. Never mutates the store. -/
def listReservations (s : Store) (roomIdNum : Option ℚ) : ListResult :=
  match roomIdNum with
  | none => .roomNotFound
  | some q =>
    match getRoomById s.rooms q with
    | none => .roomNotFound
    | some room => .ok (sortByStart room.reservations)

/-- The DELETE handler of `src/routes/reservations_router.js`: room lookup,
finiteness check on `Number(reservationId)`, then
`removeReservationFromRoom`. -/
def deleteReservation (s : Store) (roomIdNum ridNum : Option ℚ) :
    DeleteResult × Store :=
  match roomIdNum with
  | none => (.roomNotFound, s)
  | some q =>
    match getRoomById s.rooms q with
    | none => (.roomNotFound, s)
    | some room =>
      match ridNum with
      | none => (.invalidReservationId, s)
      | some rq =>
        match (removeFirst room.reservations rq).1 with
        | none => (.reservationNotFound, s)
        | some r =>
          (.deleted r,
           { s with rooms := updateRoomList s.rooms q fun rm =>
               { rm with reservations := (removeFirst rm.reservations rq).2 } })

/-- `loadRoom` of `src/app.js`: 404 when `Number(roomId)` is not finite, below
1, or above `rooms.length`; otherwise it attaches `rooms.find(...)` — possibly
`undefined` (inner `none`) — and calls `next()`. -/
def loadRoomApp (rooms : List Room) (roomIdNum : Option ℚ) :
    Option (Option Room) :=
  match roomIdNum with
  | none => none
  | some q =>
    if q < 1 || (rooms.length : ℚ) < q then none
    else some (rooms.find? fun r => (r.id : ℚ) == q)

/-- The POST handler of `src/app.js`. Identical checks in the same order as
the router variant, but behind `app.js`'s `loadRoom`: when that middleware
attached `undefined` as the room, the handler only faults (500, via the
generic error middleware) at its first dereference of `req.room` — the
conflict scan — after the body checks already ran. -/
def appCreateReservation (parseDate : String → Option Int) (nowMs : Int)
    (s : Store) (roomIdNum : Option ℚ) (start fin : JsValue) :
    CreateResult × Store :=
  match loadRoomApp s.rooms roomIdNum with
  | none => (.roomNotFound, s)
  | some attached =>
    if !start.truthy || !fin.truthy then (.missingField, s)
    else if !isValidInterval (parseIsoToMs parseDate start)
        (parseIsoToMs parseDate fin) then (.invalidTimes, s)
    else
      match parseIsoToMs parseDate start, parseIsoToMs parseDate fin with
      | some rawS, some rawE =>
        if !isValidInterval (some (normalizeToMinute rawS))
            (some (normalizeToMinute rawE)) then
          (.invalidAfterNormalization, s)
        else if isInPast (normalizeToMinute rawS) nowMs then (.pastStart, s)
        else
          match attached with
          | none => (.internalError, s)
          | some room =>
            match room.reservations.find?
                (fun r => intervalsOverlap (normalizeToMinute rawS)
                  (normalizeToMinute rawE) r.startMs r.endMs) with
            | some c => (.conflict c, s)
            | none =>
              (.created
                 { id := s.nextReservationId,
                   startMs := normalizeToMinute rawS,
                   endMs := normalizeToMinute rawE },
               { rooms := updateRoomList s.rooms ((room.id : ℚ))
                   (fun rm =>
                     { rm with reservations := rm.reservations ++
                         [{ id := s.nextReservationId,
                            startMs := normalizeToMinute rawS,
                            endMs := normalizeToMinute rawE }] }),
                 nextReservationId := s.nextReservationId + 1 })
      | _, _ => (.invalidTimes, s)

/-- The GET handler of `src/app.js`: dereferences `req.room` immediately, so
an attached `undefined` room is the generic 500. -/
def appListReservations (s : Store) (roomIdNum : Option ℚ) : ListResult :=
  match loadRoomApp s.rooms roomIdNum with
  | none => .roomNotFound
  | some none => .internalError
  | some (some room) => .ok (sortByStart room.reservations)

/-- The DELETE handler of `src/app.js`: the reservation-id finiteness check
runs before the first dereference of `req.room` (`findIndex`). -/
def appDeleteReservation (s : Store) (roomIdNum ridNum : Option ℚ) :
    DeleteResult × Store :=
  match loadRoomApp s.rooms roomIdNum with
  | none => (.roomNotFound, s)
  | some attached =>
    match ridNum with
    | none => (.invalidReservationId, s)
    | some rq =>
      match attached with
      | none => (.internalError, s)
      | some room =>
        match (removeFirst room.reservations rq).1 with
        | none => (.reservationNotFound, s)
        | some r =>
          (.deleted r,
           { s with rooms := updateRoomList s.rooms ((room.id : ℚ)) fun rm =>
               { rm with reservations := (removeFirst rm.reservations rq).2 } })

/-- A store-mutating request: create, delete, or the full reset
(`resetData`). The create carries its own `Date.parse` oracle and current
instant, both of which vary per request. -/
inductive Op where
  | create (parseDate : String → Option Int) (nowMs : Int)
      (roomIdNum : Option ℚ) (start fin : JsValue)
  | delete (roomIdNum ridNum : Option ℚ)
  | reset

/-- Whether an operation is the full reset. -/
def Op.isReset : Op → Bool
  | .reset => true
  | _ => false

/-- The store after one request (router variant). -/
def applyOp (s : Store) : Op → Store
  | .create parseDate nowMs roomIdNum start fin =>
    (createReservation parseDate nowMs s roomIdNum start fin).2
  | .delete roomIdNum ridNum => (deleteReservation s roomIdNum ridNum).2
  | .reset => initRooms

/-- The store reached from the initial store by a request sequence. -/
def runOps (ops : List Op) : Store :=
  ops.foldl applyOp initRooms

/-- The reservation ids handed out by the successful creates of a request
sequence, in order, starting from store `s`. -/
def assignedIds (s : Store) : List Op → List Nat
  | [] => []
  | op :: rest =>
    match op with
    | .create parseDate nowMs roomIdNum start fin =>
      match createReservation parseDate nowMs s roomIdNum start fin with
      | (.created r, s2) => r.id :: assignedIds s2 rest
      | (_, s2) => assignedIds s2 rest
    | _ => assignedIds (applyOp s op) rest

/-- Two reservations do not overlap as half-open intervals. -/
def NoOv (a b : Reservation) : Prop :=
  ¬ (a.startMs < b.endMs ∧ b.startMs < a.endMs)

/-- The non-overlap invariant: every room's reservations are pairwise
non-overlapping. -/
def GoodStore (s : Store) : Prop :=
  ∀ room ∈ s.rooms, room.reservations.Pairwise NoOv

/-- Id hygiene: within every room the reservation ids are duplicate-free and
all strictly below the global counter. -/
def StoreIds (s : Store) : Prop :=
  ∀ room ∈ s.rooms, (room.reservations.map Reservation.id).Nodup ∧
    ∀ r ∈ room.reservations, r.id < s.nextReservationId

/-- Shape invariant: the store always holds exactly the ten startup rooms
with ids 1..10, in order. -/
def RoomsShape (s : Store) : Prop :=
  s.rooms.map Room.id = (List.range 10).map (fun i => i + 1)

/-! ## Concrete inputs for counterexamples and witness runs -/

/-- A concrete `Date.parse` oracle: "S" parses to the epoch and "E" to
12 hours + 1 minute later (43,260,000 ms); everything else fails. -/
def pdLong : String → Option Int := fun x =>
  if x = "S" then some 0 else if x = "E" then some 43260000 else none

/-- A concrete `Date.parse` oracle: "S" parses to minute 1 and "E" to one
hour and one minute after the epoch. -/
def pdHour : String → Option Int := fun x =>
  if x = "S" then some 60000 else if x = "E" then some 3660000 else none

/-- A concrete `Date.parse` oracle for two back-to-back half-hour slots:
"A" ↦ minute 1, "B" and "C" ↦ minute 2, "D" ↦ minute 3. -/
def pdTwo : String → Option Int := fun x =>
  if x = "A" then some 60000 else if x = "B" then some 120000
  else if x = "C" then some 120000 else if x = "D" then some 180000 else none

/-- A concrete `Date.parse` oracle where "T" parses to minute 1, "E" to
minute 2, and everything else — "X" in particular — fails. -/
def pdBad : String → Option Int := fun x =>
  if x = "T" then some 60000 else if x = "E" then some 120000 else none

/-- A concrete `Date.parse` oracle for the truncation-collapse run: "S" at
15 minutes + 30 seconds, "E" at 15 minutes + 45 seconds. -/
def pdCollapse : String → Option Int := fun x =>
  if x = "S" then some 930000 else if x = "E" then some 945000 else none

/-- A concrete `Date.parse` oracle for the past-start boundary runs:
"S" ↦ minute 1, "E" ↦ minute 2, "S2" ↦ minute 1 + 30 s. -/
def pdPast : String → Option Int := fun x =>
  if x = "S" then some 60000 else if x = "E" then some 120000
  else if x = "S2" then some 90000 else none

/-- The `Date.parse` oracle of the adjacency property, relative to a base
instant `T`: the four timestamps bounding `[T, T+30m)` and `[T+30m, T+60m)`. -/
def pdAdj (T : Int) : String → Option Int := fun x =>
  if x = "S1" then some T else if x = "E1" then some (T + 1800000)
  else if x = "S2" then some (T + 1800000)
  else if x = "E2" then some (T + 3600000) else none

/-- Two back-to-back creates on room 1: `[1min, 2min)` then `[2min, 3min)`,
both issued at the epoch. -/
def opsTwo : List Op :=
  [.create pdTwo 0 (some 1) (.str "A") (.str "B"),
   .create pdTwo 0 (some 1) (.str "C") (.str "D")]

/-- One successful create on room 1 followed by deleting reservation 1. -/
def opsDel : List Op :=
  [.create pdHour 0 (some 1) (.str "S") (.str "E"),
   .delete (some 1) (some 1)]

/-- The first room of the initial store. -/
def room1 : Room := { id := 1, name := "Room 1", reservations := [] }

/-- First reservation of the `opsTwo` run: `[1min, 2min)` with id 1. -/
def resvA : Reservation := { id := 1, startMs := 60000, endMs := 120000 }

/-- Second reservation of the `opsTwo` run: `[2min, 3min)` with id 2. -/
def resvB : Reservation := { id := 2, startMs := 120000, endMs := 180000 }

/-- Room 1 as it stands after the `opsTwo` run. -/
def room1AfterTwo : Room :=
  { id := 1, name := "Room 1", reservations := [resvA, resvB] }

/-- First reservation of the adjacency run: `[T, T+30m)` with id 1. -/
def adjRes1 (T : Int) : Reservation :=
  { id := 1, startMs := T, endMs := T + 1800000 }

/-- Second reservation of the adjacency run: `[T+30m, T+60m)` with id 2. -/
def adjRes2 (T : Int) : Reservation :=
  { id := 2, startMs := T + 1800000, endMs := T + 3600000 }

/-- Appending the first adjacency reservation to a room. -/
def adjPush1 (T : Int) : Room → Room :=
  fun rm => { rm with reservations := rm.reservations ++ [adjRes1 T] }

/-- Appending the second adjacency reservation to a room. -/
def adjPush2 (T : Int) : Room → Room :=
  fun rm => { rm with reservations := rm.reservations ++ [adjRes2 T] }

/-- The store after the first adjacency create. -/
def adjStore1 (T : Int) : Store :=
  { rooms := updateRoomList initRooms.rooms 1 (adjPush1 T),
    nextReservationId := 2 }

/-- The store after both adjacency creates. -/
def adjStore2 (T : Int) : Store :=
  { rooms := updateRoomList (adjStore1 T).rooms 1 (adjPush2 T),
    nextReservationId := 3 }

/-! ## Helper lemmas about the store primitives -/

/-- When the lookup fails, the first-match update leaves the room list
unchanged. -/
lemma updateRoomList_of_none {rooms : List Room} {q : ℚ}
    (h : getRoomById rooms q = none) (f : Room → Room) :
    updateRoomList rooms q f = rooms := by
  induction rooms with
  | nil => rfl
  | cons r rest ih =>
    unfold getRoomById at h ih
    rw [List.find?_cons] at h
    unfold updateRoomList
    cases hm : ((r.id : ℚ) == q) with
    | true => rw [hm] at h; simp at h
    | false => rw [hm] at h; simp only [hm, Bool.false_eq_true, if_false, ih h]

/-- A successful lookup splits the room list around the first match, and the
first-match update rewrites exactly that occurrence. -/
lemma updateRoomList_split {rooms : List Room} {q : ℚ} {room : Room}
    (h : getRoomById rooms q = some room) :
    ∃ pre post, rooms = pre ++ room :: post ∧
      (∀ r ∈ pre, ((r.id : ℚ) == q) = false) ∧
      ∀ f, updateRoomList rooms q f = pre ++ f room :: post := by
  induction rooms with
  | nil => simp [getRoomById] at h
  | cons r rest ih =>
    unfold getRoomById at h ih
    rw [List.find?_cons] at h
    cases hm : ((r.id : ℚ) == q) with
    | true =>
      rw [hm] at h
      simp only [Option.some.injEq] at h
      subst h
      exact ⟨[], rest, rfl, by simp, fun f => by unfold updateRoomList; simp [hm]⟩
    | false =>
      rw [hm] at h
      obtain ⟨pre, post, hsplit, hpre, hupd⟩ := ih h
      refine ⟨r :: pre, post, by simp [hsplit], ?_, fun f => ?_⟩
      · intro x hx
        rcases List.mem_cons.mp hx with rfl | hx
        · exact hm
        · exact hpre x hx
      · unfold updateRoomList
        simp only [hm, Bool.false_eq_true, if_false, hupd f, List.cons_append]

/-- Every room of the updated list is either an untouched room of the old
list or the image of the looked-up room. -/
lemma mem_updateRoomList {rooms : List Room} {q : ℚ} {f : Room → Room}
    {room2 : Room} (h : room2 ∈ updateRoomList rooms q f) :
    room2 ∈ rooms ∨ ∃ rm, getRoomById rooms q = some rm ∧ room2 = f rm := by
  cases hg : getRoomById rooms q with
  | none => rw [updateRoomList_of_none hg] at h; exact Or.inl h
  | some rm =>
    obtain ⟨pre, post, hsplit, -, hupd⟩ := updateRoomList_split hg
    rw [hupd f] at h
    rcases List.mem_append.mp h with h | h
    · exact Or.inl (hsplit ▸ List.mem_append.mpr (Or.inl h))
    · rcases List.mem_cons.mp h with rfl | h
      · exact Or.inr ⟨rm, rfl, rfl⟩
      · exact Or.inl (hsplit ▸ List.mem_append.mpr (Or.inr (List.mem_cons_of_mem _ h)))

/-- An id-preserving update keeps the list of room ids. -/
lemma updateRoomList_map_id {rooms : List Room} {q : ℚ} {f : Room → Room}
    (hf : ∀ rm, (f rm).id = rm.id) :
    (updateRoomList rooms q f).map Room.id = rooms.map Room.id := by
  induction rooms with
  | nil => rfl
  | cons r rest ih =>
    unfold updateRoomList
    cases hm : ((r.id : ℚ) == q) with
    | true => simp [hm, hf]
    | false => simp [hm, ih]

/-- Looking the room up again after an id-preserving first-match update finds
the image of the originally found room. -/
lemma getRoomById_update {rooms : List Room} {q : ℚ} {room : Room}
    {f : Room → Room} (h : getRoomById rooms q = some room)
    (hf : ∀ rm, (f rm).id = rm.id) :
    getRoomById (updateRoomList rooms q f) q = some (f room) := by
  obtain ⟨pre, post, -, hpre, hupd⟩ := updateRoomList_split h
  rw [hupd f]
  unfold getRoomById
  rw [List.find?_append]
  have h1 : pre.find? (fun r => (r.id : ℚ) == q) = none :=
    List.find?_eq_none.mpr fun x hx => by simp [hpre x hx]
  have h2 : rooms.find? (fun r => (r.id : ℚ) == q) = some room := by
    simpa [getRoomById] using h
  have hmatch : (((f room).id : ℚ) == q) = true := by
    rw [hf room]
    simpa using List.find?_some h2
  rw [h1, Option.none_or, List.find?_cons, hmatch]

/-- What `removeReservationFromRoom` keeps is a sublist of what was there. -/
lemma removeFirst_sublist (l : List Reservation) (rq : ℚ) :
    (removeFirst l rq).2.Sublist l := by
  induction l with
  | nil => simp [removeFirst]
  | cons r rest ih =>
    unfold removeFirst
    cases hm : ((r.id : ℚ) == rq) with
    | true => simp [hm]
    | false =>
      simp only [hm, Bool.false_eq_true, if_false]
      exact List.Sublist.cons₂ r ih

/-- If no reservation matches, `removeReservationFromRoom` returns `null` and
touches nothing. -/
lemma removeFirst_of_no_match {l : List Reservation} {rq : ℚ}
    (h : ∀ r ∈ l, ((r.id : ℚ) == rq) = false) :
    removeFirst l rq = (none, l) := by
  induction l with
  | nil => rfl
  | cons r rest ih =>
    unfold removeFirst
    rw [h r (List.mem_cons_self r rest)]
    simp only [Bool.false_eq_true, if_false]
    rw [ih fun x hx => h x (List.mem_cons_of_mem r hx)]

/-- A successful removal splits the list around the first matching
reservation. -/
lemma removeFirst_some_split {l : List Reservation} {rq : ℚ} {r : Reservation}
    (h : (removeFirst l rq).1 = some r) :
    ∃ pre post, l = pre ++ r :: post ∧ (removeFirst l rq).2 = pre ++ post ∧
      (∀ x ∈ pre, ((x.id : ℚ) == rq) = false) ∧ ((r.id : ℚ) == rq) = true := by
  induction l with
  | nil => simp [removeFirst] at h
  | cons x rest ih =>
    by_cases hm : ((x.id : ℚ) == rq) = true
    · have hx : removeFirst (x :: rest) rq = (some x, rest) := by
        simp only [removeFirst]
        rw [if_pos hm]
      rw [hx] at h
      simp only [Option.some.injEq] at h
      subst h
      exact ⟨[], rest, rfl, by simp [hx], by simp, hm⟩
    · have hb : ((x.id : ℚ) == rq) = false := by simpa using hm
      have hx : removeFirst (x :: rest) rq
          = ((removeFirst rest rq).1, x :: (removeFirst rest rq).2) := by
        simp only [removeFirst]
        rw [if_neg hm]
      rw [hx] at h
      obtain ⟨pre, post, hsplit, hrest, hpre, hr⟩ := ih h
      refine ⟨x :: pre, post, by simp [hsplit], ?_, ?_, hr⟩
      · rw [hx]
        simp [hrest]
      · intro y hy
        rcases List.mem_cons.mp hy with rfl | hy
        · exact hb
        · exact hpre y hy

/-! ## Characterization of the create and delete handlers -/

/-- A create request either succeeds or returns its store untouched. -/
lemma create_snd_eq (pd : String → Option Int) (nowMs : Int) (s : Store)
    (rid : Option ℚ) (st fin : JsValue) :
    (createReservation pd nowMs s rid st fin).1.isCreated = true ∨
      (createReservation pd nowMs s rid st fin).2 = s := by
  unfold createReservation
  repeat' split
  all_goals first | (left; rfl) | (right; rfl)

/-- Store preservation on any failing create (router variant). -/
lemma create_not_created {pd : String → Option Int} {nowMs : Int} {s : Store}
    {rid : Option ℚ} {st fin : JsValue}
    (h : (createReservation pd nowMs s rid st fin).1.isCreated = false) :
    (createReservation pd nowMs s rid st fin).2 = s := by
  rcases create_snd_eq pd nowMs s rid st fin with h1 | h1
  · rw [h1] at h
    cases h
  · exact h1

/-- A delete request either succeeds or returns its store untouched. -/
lemma delete_snd_eq (s : Store) (rid ridNum : Option ℚ) :
    (deleteReservation s rid ridNum).1.isDeleted = true ∨
      (deleteReservation s rid ridNum).2 = s := by
  unfold deleteReservation
  repeat' split
  all_goals first | (left; rfl) | (right; rfl)

/-- Store preservation on any failing delete (router variant). -/
lemma delete_not_deleted {s : Store} {rid ridNum : Option ℚ}
    (h : (deleteReservation s rid ridNum).1.isDeleted = false) :
    (deleteReservation s rid ridNum).2 = s := by
  rcases delete_snd_eq s rid ridNum with h1 | h1
  · rw [h1] at h
    cases h
  · exact h1

/-- Deletion never advances the reservation-id counter. -/
lemma delete_nextId (s : Store) (rid ridNum : Option ℚ) :
    (deleteReservation s rid ridNum).2.nextReservationId = s.nextReservationId := by
  unfold deleteReservation
  repeat' split
  all_goals rfl

/-- The app.js-variant create either succeeds or returns its store
untouched. -/
lemma app_create_snd_eq (pd : String → Option Int) (nowMs : Int) (s : Store)
    (rid : Option ℚ) (st fin : JsValue) :
    (appCreateReservation pd nowMs s rid st fin).1.isCreated = true ∨
      (appCreateReservation pd nowMs s rid st fin).2 = s := by
  unfold appCreateReservation
  repeat' split
  all_goals first | (left; rfl) | (right; rfl)

/-- The app.js-variant delete either succeeds or returns its store
untouched. -/
lemma app_delete_snd_eq (s : Store) (rid ridNum : Option ℚ) :
    (appDeleteReservation s rid ridNum).1.isDeleted = true ∨
      (appDeleteReservation s rid ridNum).2 = s := by
  unfold appDeleteReservation
  repeat' split
  all_goals first | (left; rfl) | (right; rfl)

/-- Full inversion of a successful create (router variant): the room was
found, both timestamps parsed, the conflict scan came back empty, the new
reservation got the current counter value and minute-truncated bounds, and
the store gained exactly that reservation at the found room while the
counter advanced by one. -/
lemma create_success_inv {pd : String → Option Int} {nowMs : Int} {s : Store}
    {rid : Option ℚ} {st fin : JsValue} {r : Reservation} {s2 : Store}
    (h : createReservation pd nowMs s rid st fin = (.created r, s2)) :
    ∃ q room rawS rawE, rid = some q ∧ getRoomById s.rooms q = some room ∧
      parseIsoToMs pd st = some rawS ∧ parseIsoToMs pd fin = some rawE ∧
      r = { id := s.nextReservationId, startMs := normalizeToMinute rawS,
            endMs := normalizeToMinute rawE } ∧
      room.reservations.find?
        (fun x => intervalsOverlap (normalizeToMinute rawS)
          (normalizeToMinute rawE) x.startMs x.endMs) = none ∧
      s2 = { rooms := updateRoomList s.rooms q
               (fun rm => { rm with reservations := rm.reservations ++ [r] }),
             nextReservationId := s.nextReservationId + 1 } := by
  unfold createReservation at h
  split at h
  · exact absurd h (by simp)
  rename_i q
  split at h
  · exact absurd h (by simp)
  rename_i room hroom
  split at h
  · exact absurd h (by simp)
  split at h
  · exact absurd h (by simp)
  split at h
  case _ rawS rawE hps hpe =>
    split at h
    · exact absurd h (by simp)
    split at h
    · exact absurd h (by simp)
    split at h
    · exact absurd h (by simp)
    rename_i hfind
    rw [Prod.mk.injEq] at h
    obtain ⟨h1, h2⟩ := h
    injection h1 with h1
    subst h1
    subst h2
    exact ⟨q, room, rawS, rawE, rfl, hroom, hps, hpe, rfl, hfind, rfl⟩
  case _ =>
    exact absurd h (by simp)

/-- With the room found, a falsy `start` or `end` field stops the create at
the missing-field check, whatever the parser would have said. -/
lemma create_of_missing {pd : String → Option Int} {nowMs : Int} {s : Store}
    {q : ℚ} {room : Room} {st fin : JsValue}
    (hroom : getRoomById s.rooms q = some room)
    (hmiss : st.truthy = false ∨ fin.truthy = false) :
    createReservation pd nowMs s (some q) st fin = (.missingField, s) := by
  unfold createReservation
  simp only [hroom]
  rcases hmiss with h | h <;> simp [h]

/-- With the room found and both fields truthy, a failing pre-truncation
`isValidInterval` stops the create at the invalid-times check. -/
lemma create_of_invalidTimes {pd : String → Option Int} {nowMs : Int}
    {s : Store} {q : ℚ} {room : Room} {st fin : JsValue}
    (hroom : getRoomById s.rooms q = some room)
    (hst : st.truthy = true) (hen : fin.truthy = true)
    (hbad : isValidInterval (parseIsoToMs pd st) (parseIsoToMs pd fin) = false) :
    createReservation pd nowMs s (some q) st fin = (.invalidTimes, s) := by
  unfold createReservation
  simp only [hroom]
  simp [hst, hen, hbad]

/-- With both instants parsed and strictly increasing, a non-increasing pair
of truncated instants stops the create at the post-normalization check. -/
lemma create_of_afterNorm {pd : String → Option Int} {nowMs : Int} {s : Store}
    {q : ℚ} {room : Room} {st fin : JsValue} {rawS rawE : Int}
    (hroom : getRoomById s.rooms q = some room)
    (hst : st.truthy = true) (hen : fin.truthy = true)
    (hps : parseIsoToMs pd st = some rawS)
    (hpe : parseIsoToMs pd fin = some rawE)
    (hpre : rawS < rawE)
    (hpost : normalizeToMinute rawE ≤ normalizeToMinute rawS) :
    createReservation pd nowMs s (some q) st fin
      = (.invalidAfterNormalization, s) := by
  unfold createReservation
  simp only [hroom]
  have hv : isValidInterval (some rawS) (some rawE) = true := by
    simpa [isValidInterval] using hpre
  have hbad : isValidInterval (some (normalizeToMinute rawS))
      (some (normalizeToMinute rawE)) = false := by
    simp [isValidInterval]
    omega
  simp [hst, hen, hv, hps, hpe, hbad]

/-- With the interval checks passed, a truncated start strictly before the
truncated current instant stops the create at the past-start check. -/
lemma create_of_pastStart {pd : String → Option Int} {nowMs : Int} {s : Store}
    {q : ℚ} {room : Room} {st fin : JsValue} {rawS rawE : Int}
    (hroom : getRoomById s.rooms q = some room)
    (hst : st.truthy = true) (hen : fin.truthy = true)
    (hps : parseIsoToMs pd st = some rawS)
    (hpe : parseIsoToMs pd fin = some rawE)
    (hpre : rawS < rawE)
    (hpost : normalizeToMinute rawS < normalizeToMinute rawE)
    (hpast : normalizeToMinute rawS < normalizeToMinute nowMs) :
    createReservation pd nowMs s (some q) st fin = (.pastStart, s) := by
  unfold createReservation
  simp only [hroom]
  have hv : isValidInterval (some rawS) (some rawE) = true := by
    simpa [isValidInterval] using hpre
  have hv2 : isValidInterval (some (normalizeToMinute rawS))
      (some (normalizeToMinute rawE)) = true := by
    simpa [isValidInterval] using hpost
  simp [hst, hen, hv, hps, hpe, hv2, isInPast, hpast]

/-- With every check up to the past-start check passed, the create is decided
by the conflict scan alone: the first overlapping reservation is reported, or
the reservation is created. -/
lemma create_of_checks {pd : String → Option Int} {nowMs : Int} {s : Store}
    {q : ℚ} {room : Room} {st fin : JsValue} {rawS rawE : Int}
    (hroom : getRoomById s.rooms q = some room)
    (hst : st.truthy = true) (hen : fin.truthy = true)
    (hps : parseIsoToMs pd st = some rawS)
    (hpe : parseIsoToMs pd fin = some rawE)
    (hpre : rawS < rawE)
    (hpost : normalizeToMinute rawS < normalizeToMinute rawE)
    (hpast : ¬ normalizeToMinute rawS < normalizeToMinute nowMs) :
    createReservation pd nowMs s (some q) st fin
      = match room.reservations.find?
          (fun r => intervalsOverlap (normalizeToMinute rawS)
            (normalizeToMinute rawE) r.startMs r.endMs) with
        | some c => (.conflict c, s)
        | none =>
          (.created
             { id := s.nextReservationId,
               startMs := normalizeToMinute rawS,
               endMs := normalizeToMinute rawE },
           { rooms := updateRoomList s.rooms q
               (fun rm =>
                 { rm with reservations := rm.reservations ++
                     [{ id := s.nextReservationId,
                        startMs := normalizeToMinute rawS,
                        endMs := normalizeToMinute rawE }] }),
             nextReservationId := s.nextReservationId + 1 }) := by
  unfold createReservation
  simp only [hroom]
  have hv : isValidInterval (some rawS) (some rawE) = true := by
    simpa [isValidInterval] using hpre
  have hv2 : isValidInterval (some (normalizeToMinute rawS))
      (some (normalizeToMinute rawE)) = true := by
    simpa [isValidInterval] using hpost
  simp [hst, hen, hv, hps, hpe, hv2, isInPast, hpast]

/-- Full inversion of a successful delete (router variant). -/
lemma delete_success_inv {s : Store} {rid ridNum : Option ℚ}
    {r : Reservation} {s2 : Store}
    (h : deleteReservation s rid ridNum = (.deleted r, s2)) :
    ∃ q room rq, rid = some q ∧ getRoomById s.rooms q = some room ∧
      ridNum = some rq ∧ (removeFirst room.reservations rq).1 = some r ∧
      s2 = { s with rooms := updateRoomList s.rooms q fun rm =>
               { rm with reservations := (removeFirst rm.reservations rq).2 } } := by
  unfold deleteReservation at h
  split at h
  · exact absurd h (by simp)
  rename_i q
  split at h
  · exact absurd h (by simp)
  rename_i room hroom
  split at h
  · exact absurd h (by simp)
  rename_i rq
  split at h
  · exact absurd h (by simp)
  rename_i r2 hrem
  rw [Prod.mk.injEq] at h
  obtain ⟨h1, h2⟩ := h
  injection h1 with h1
  subst h1
  subst h2
  exact ⟨q, room, rq, rfl, hroom, rfl, hrem, rfl⟩

/-! ## Store invariants -/


/-- Non-overlap is symmetric. -/
lemma noOv_symm : Symmetric NoOv := by
  intro a b h hc
  exact h ⟨hc.2, hc.1⟩


/-- The initial store satisfies the non-overlap invariant. -/
lemma goodStore_init : GoodStore initRooms := by
  intro room hroom
  simp only [initRooms, List.mem_map] at hroom
  obtain ⟨i, -, rfl⟩ := hroom
  exact List.Pairwise.nil

/-- A successful create preserves the non-overlap invariant: the new
reservation survived the conflict scan against everything already in its
room. -/
lemma goodStore_create {pd : String → Option Int} {nowMs : Int} {s : Store}
    {rid : Option ℚ} {st fin : JsValue} (hg : GoodStore s) :
    GoodStore (createReservation pd nowMs s rid st fin).2 := by
  cases hcr : (createReservation pd nowMs s rid st fin).1.isCreated with
  | false => rw [create_not_created hcr]; exact hg
  | true =>
    rcases hres : createReservation pd nowMs s rid st fin with ⟨res, s2⟩
    cases res with
    | created r =>
      obtain ⟨q, room, rawS, rawE, -, hroom, -, -, hr, hfind, hs2⟩ :=
        create_success_inv hres
      rw [hs2]
      intro room2 hroom2
      rcases mem_updateRoomList hroom2 with h | ⟨rm, hrm, rfl⟩
      · exact hg room2 h
      · rw [hrm] at hroom
        injection hroom with hroom
        subst hroom
        simp only
        rw [List.pairwise_append]
        refine ⟨hg rm (List.mem_of_find?_eq_some hrm), List.pairwise_singleton .., ?_⟩
        intro a ha b hb
        rw [List.mem_singleton] at hb
        subst hb
        have hno := List.find?_eq_none.mp hfind a ha
        simp only [intervalsOverlap, Bool.and_eq_true, decide_eq_true_eq, not_and] at hno
        intro hc
        rw [hr] at hc
        simp only at hc
        exact absurd hc.2 (fun h2 => hno h2 hc.1)
    | roomNotFound => rw [hres] at hcr; cases hcr
    | missingField => rw [hres] at hcr; cases hcr
    | invalidTimes => rw [hres] at hcr; cases hcr
    | invalidAfterNormalization => rw [hres] at hcr; cases hcr
    | pastStart => rw [hres] at hcr; cases hcr
    | conflict c => rw [hres] at hcr; cases hcr
    | internalError => rw [hres] at hcr; cases hcr

/-- Deletion preserves the non-overlap invariant: removing an element keeps a
pairwise property. -/
lemma goodStore_delete {s : Store} {rid ridNum : Option ℚ} (hg : GoodStore s) :
    GoodStore (deleteReservation s rid ridNum).2 := by
  cases hdr : (deleteReservation s rid ridNum).1.isDeleted with
  | false => rw [delete_not_deleted hdr]; exact hg
  | true =>
    rcases hres : deleteReservation s rid ridNum with ⟨res, s2⟩
    cases res with
    | deleted r =>
      obtain ⟨q, room, rq, -, -, -, -, hs2⟩ := delete_success_inv hres
      rw [hs2]
      intro room2 hroom2
      rcases mem_updateRoomList hroom2 with h | ⟨rm, hrm, rfl⟩
      · exact hg room2 h
      · exact (hg rm (List.mem_of_find?_eq_some hrm)).sublist
          (removeFirst_sublist rm.reservations rq)
    | roomNotFound => rw [hres] at hdr; cases hdr
    | invalidReservationId => rw [hres] at hdr; cases hdr
    | reservationNotFound => rw [hres] at hdr; cases hdr
    | internalError => rw [hres] at hdr; cases hdr

/-- Every request preserves the non-overlap invariant. -/
lemma goodStore_applyOp {s : Store} (hg : GoodStore s) (op : Op) :
    GoodStore (applyOp s op) := by
  cases op with
  | create pd nowMs rid st fin => exact goodStore_create hg
  | delete rid ridNum => exact goodStore_delete hg
  | reset => exact goodStore_init

/-- Every store reachable from the initial store satisfies the non-overlap
invariant. -/
lemma goodStore_run (ops : List Op) : GoodStore (runOps ops) := by
  have key : ∀ l : List Op, ∀ s : Store, GoodStore s → GoodStore (l.foldl applyOp s) := by
    intro l
    induction l with
    | nil => exact fun s hs => hs
    | cons op rest ih =>
      intro s hs
      exact ih (applyOp s op) (goodStore_applyOp hs op)
  exact key ops initRooms goodStore_init

/-- After removing the first reservation matching an id, a duplicate-free
room holds no further match for that id. -/
lemma removeFirst_no_second {l : List Reservation} {rq : ℚ} {r : Reservation}
    (hnd : (l.map Reservation.id).Nodup)
    (h : (removeFirst l rq).1 = some r) :
    ∀ x ∈ (removeFirst l rq).2, ((x.id : ℚ) == rq) = false := by
  obtain ⟨pre, post, hsplit, hrest, hpre, hr⟩ := removeFirst_some_split h
  intro x hx
  rw [hrest] at hx
  rcases List.mem_append.mp hx with hx | hx
  · exact hpre x hx
  · subst hsplit
    rw [List.map_append, List.map_cons] at hnd
    have h3 : r.id ∉ post.map Reservation.id :=
      (List.nodup_cons.mp (List.nodup_append.mp hnd).2.1).1
    have hne : x.id ≠ r.id := by
      intro he
      exact h3 (he ▸ List.mem_map_of_mem Reservation.id hx)
    cases hbe : ((x.id : ℚ) == rq) with
    | false => rfl
    | true =>
      exfalso
      have hx2 : (x.id : ℚ) = rq := by simpa using hbe
      have hr2 : (r.id : ℚ) = rq := by simpa using hr
      exact hne (Nat.cast_injective (hx2.trans hr2.symm))


/-- The initial store satisfies id hygiene. -/
lemma storeIds_init : StoreIds initRooms := by
  intro room hroom
  simp only [initRooms, List.mem_map] at hroom
  obtain ⟨i, -, rfl⟩ := hroom
  exact ⟨List.nodup_nil, by simp⟩

/-- A create preserves id hygiene: the new reservation takes the counter
value, strictly above every id already stored. -/
lemma storeIds_create {pd : String → Option Int} {nowMs : Int} {s : Store}
    {rid : Option ℚ} {st fin : JsValue} (hg : StoreIds s) :
    StoreIds (createReservation pd nowMs s rid st fin).2 := by
  cases hcr : (createReservation pd nowMs s rid st fin).1.isCreated with
  | false => rw [create_not_created hcr]; exact hg
  | true =>
    rcases hres : createReservation pd nowMs s rid st fin with ⟨res, s2⟩
    cases res with
    | created r =>
      obtain ⟨q, room, rawS, rawE, -, hroom, -, -, hr, -, hs2⟩ :=
        create_success_inv hres
      have hid : r.id = s.nextReservationId := by rw [hr]
      rw [hs2]
      intro room2 hroom2
      simp only at hroom2 ⊢
      rcases mem_updateRoomList hroom2 with h | ⟨rm, hrm, rfl⟩
      · obtain ⟨h1, h2⟩ := hg room2 h
        exact ⟨h1, fun x hx => Nat.lt_succ_of_lt (h2 x hx)⟩
      · obtain ⟨h1, h2⟩ := hg rm (List.mem_of_find?_eq_some hrm)
        constructor
        · simp only [List.map_append, List.map_singleton]
          rw [List.nodup_append]
          refine ⟨h1, List.nodup_singleton _, ?_⟩
          intro a ha hb
          rw [List.mem_singleton] at hb
          subst hb
          rcases List.mem_map.mp ha with ⟨y, hy, hya⟩
          have hlt := h2 y hy
          rw [hya, hid] at hlt
          exact absurd hlt (lt_irrefl _)
        · intro x hx
          rcases List.mem_append.mp hx with hx | hx
          · exact Nat.lt_succ_of_lt (h2 x hx)
          · rw [List.mem_singleton] at hx
            subst hx
            rw [hid]
            exact Nat.lt_succ_self _
    | roomNotFound => rw [hres] at hcr; cases hcr
    | missingField => rw [hres] at hcr; cases hcr
    | invalidTimes => rw [hres] at hcr; cases hcr
    | invalidAfterNormalization => rw [hres] at hcr; cases hcr
    | pastStart => rw [hres] at hcr; cases hcr
    | conflict c => rw [hres] at hcr; cases hcr
    | internalError => rw [hres] at hcr; cases hcr

/-- A delete preserves id hygiene. -/
lemma storeIds_delete {s : Store} {rid ridNum : Option ℚ} (hg : StoreIds s) :
    StoreIds (deleteReservation s rid ridNum).2 := by
  cases hdr : (deleteReservation s rid ridNum).1.isDeleted with
  | false => rw [delete_not_deleted hdr]; exact hg
  | true =>
    rcases hres : deleteReservation s rid ridNum with ⟨res, s2⟩
    cases res with
    | deleted r =>
      obtain ⟨q, room, rq, -, -, -, -, hs2⟩ := delete_success_inv hres
      rw [hs2]
      intro room2 hroom2
      simp only at hroom2 ⊢
      rcases mem_updateRoomList hroom2 with h | ⟨rm, hrm, rfl⟩
      · exact hg room2 h
      · obtain ⟨h1, h2⟩ := hg rm (List.mem_of_find?_eq_some hrm)
        have hsub := removeFirst_sublist rm.reservations rq
        exact ⟨h1.sublist (hsub.map Reservation.id),
          fun x hx => h2 x (hsub.mem hx)⟩
    | roomNotFound => rw [hres] at hdr; cases hdr
    | invalidReservationId => rw [hres] at hdr; cases hdr
    | reservationNotFound => rw [hres] at hdr; cases hdr
    | internalError => rw [hres] at hdr; cases hdr

/-- Every request preserves id hygiene. -/
lemma storeIds_applyOp {s : Store} (hg : StoreIds s) (op : Op) :
    StoreIds (applyOp s op) := by
  cases op with
  | create pd nowMs rid st fin => exact storeIds_create hg
  | delete rid ridNum => exact storeIds_delete hg
  | reset => exact storeIds_init

/-- Every reachable store satisfies id hygiene. -/
lemma storeIds_run (ops : List Op) : StoreIds (runOps ops) := by
  have key : ∀ l : List Op, ∀ s : Store, StoreIds s → StoreIds (l.foldl applyOp s) := by
    intro l
    induction l with
    | nil => exact fun s hs => hs
    | cons op rest ih =>
      intro s hs
      exact ih (applyOp s op) (storeIds_applyOp hs op)
  exact key ops initRooms storeIds_init


/-- The initial store has the startup shape. -/
lemma roomsShape_init : RoomsShape initRooms := by
  simp [RoomsShape, initRooms, List.map_map, Function.comp]

/-- Every request preserves the room shape: creates and deletes only rewrite
one room's reservation list, never a room id, and reset restores the startup
rooms. -/
lemma roomsShape_applyOp {s : Store} (hs : RoomsShape s) (op : Op) :
    RoomsShape (applyOp s op) := by
  cases op with
  | create pd nowMs rid st fin =>
    cases hcr : (createReservation pd nowMs s rid st fin).1.isCreated with
    | false =>
      simp only [applyOp]
      rw [create_not_created hcr]
      exact hs
    | true =>
      rcases hres : createReservation pd nowMs s rid st fin with ⟨res, s2⟩
      cases res with
      | created r =>
        obtain ⟨q, room, rawS, rawE, -, -, -, -, -, -, hs2⟩ :=
          create_success_inv hres
        simp only [applyOp]
        rw [hres]
        simp only
        rw [RoomsShape, hs2]
        simp only
        rw [updateRoomList_map_id]
        · exact hs
        · intro rm
          rfl
      | roomNotFound => rw [hres] at hcr; cases hcr
      | missingField => rw [hres] at hcr; cases hcr
      | invalidTimes => rw [hres] at hcr; cases hcr
      | invalidAfterNormalization => rw [hres] at hcr; cases hcr
      | pastStart => rw [hres] at hcr; cases hcr
      | conflict c => rw [hres] at hcr; cases hcr
      | internalError => rw [hres] at hcr; cases hcr
  | delete rid ridNum =>
    cases hdr : (deleteReservation s rid ridNum).1.isDeleted with
    | false =>
      simp only [applyOp]
      rw [delete_not_deleted hdr]
      exact hs
    | true =>
      rcases hres : deleteReservation s rid ridNum with ⟨res, s2⟩
      cases res with
      | deleted r =>
        obtain ⟨q, room, rq, -, -, -, -, hs2⟩ := delete_success_inv hres
        simp only [applyOp]
        rw [hres]
        simp only
        rw [RoomsShape, hs2]
        simp only
        rw [updateRoomList_map_id]
        · exact hs
        · intro rm
          rfl
      | roomNotFound => rw [hres] at hdr; cases hdr
      | invalidReservationId => rw [hres] at hdr; cases hdr
      | reservationNotFound => rw [hres] at hdr; cases hdr
      | internalError => rw [hres] at hdr; cases hdr
  | reset => exact roomsShape_init

/-- Every reachable store has the startup room shape. -/
lemma roomsShape_run (ops : List Op) : RoomsShape (runOps ops) := by
  have key : ∀ l : List Op, ∀ s : Store, RoomsShape s → RoomsShape (l.foldl applyOp s) := by
    intro l
    induction l with
    | nil => exact fun s hs => hs
    | cons op rest ih =>
      intro s hs
      exact ih (applyOp s op) (roomsShape_applyOp hs op)
  exact key ops initRooms roomsShape_init

/-- In a store of the startup shape, a numeric room id that is no integer in
1..10 finds no room. -/
lemma getRoomById_none_of_shape {s : Store} (hs : RoomsShape s) {q : ℚ}
    (hq : ∀ n : ℕ, 1 ≤ n → n ≤ 10 → (n : ℚ) ≠ q) :
    getRoomById s.rooms q = none := by
  unfold getRoomById
  apply List.find?_eq_none.mpr
  intro room hroom
  have hid : room.id ∈ s.rooms.map Room.id := List.mem_map_of_mem _ hroom
  rw [hs] at hid
  simp only [List.mem_map, List.mem_range] at hid
  obtain ⟨i, hi, hid⟩ := hid
  intro hbe
  have heq : (room.id : ℚ) = q := by simpa using hbe
  exact hq room.id (by omega) (by omega) heq

/-- Ids handed out along a reset-free run are consecutive from the starting
counter, and the counter ends advanced by exactly their number. -/
lemma assignedIds_spec : ∀ (ops : List Op) (s : Store),
    (∀ op ∈ ops, op.isReset = false) →
    assignedIds s ops
      = List.range' s.nextReservationId (assignedIds s ops).length ∧
    (ops.foldl applyOp s).nextReservationId
      = s.nextReservationId + (assignedIds s ops).length := by
  intro ops
  induction ops with
  | nil => exact fun s h => ⟨rfl, rfl⟩
  | cons op rest ih =>
    intro s hops
    have hop : op.isReset = false := hops op (List.mem_cons_self op rest)
    have hrest : ∀ o ∈ rest, o.isReset = false :=
      fun o ho => hops o (List.mem_cons_of_mem op ho)
    cases op with
    | reset => cases hop
    | delete rid ridNum =>
      obtain ⟨h1, h2⟩ := ih ((deleteReservation s rid ridNum).2) hrest
      rw [delete_nextId] at h1 h2
      simp only [assignedIds, applyOp, List.foldl_cons]
      exact ⟨h1, by simpa [applyOp] using h2⟩
    | create pd nowMs rid st fin =>
      rcases hres : createReservation pd nowMs s rid st fin with ⟨res, s2⟩
      cases res with
      | created r =>
        obtain ⟨q, room, rawS, rawE, -, -, -, -, hr, -, hs2⟩ :=
          create_success_inv hres
        have hnext : s2.nextReservationId = s.nextReservationId + 1 := by
          rw [hs2]
        have hid : r.id = s.nextReservationId := by rw [hr]
        obtain ⟨h1, h2⟩ := ih s2 hrest
        simp only [assignedIds, hres, List.foldl_cons, applyOp]
        constructor
        · rw [List.length_cons, List.range'_succ, hid]
          congr 1
          rw [h1, hnext, List.length_range']
        · rw [h2, hnext, List.length_cons]
          omega
      | roomNotFound =>
        have h2 := create_not_created (by rw [hres]; rfl : _)
        rw [hres] at h2
        have h3 : s2 = s := by simpa using h2
        simp only [assignedIds, hres, List.foldl_cons, applyOp]
        rw [h3]
        exact ih s hrest
      | missingField =>
        have h2 := create_not_created (by rw [hres]; rfl : _)
        rw [hres] at h2
        have h3 : s2 = s := by simpa using h2
        simp only [assignedIds, hres, List.foldl_cons, applyOp]
        rw [h3]
        exact ih s hrest
      | invalidTimes =>
        have h2 := create_not_created (by rw [hres]; rfl : _)
        rw [hres] at h2
        have h3 : s2 = s := by simpa using h2
        simp only [assignedIds, hres, List.foldl_cons, applyOp]
        rw [h3]
        exact ih s hrest
      | invalidAfterNormalization =>
        have h2 := create_not_created (by rw [hres]; rfl : _)
        rw [hres] at h2
        have h3 : s2 = s := by simpa using h2
        simp only [assignedIds, hres, List.foldl_cons, applyOp]
        rw [h3]
        exact ih s hrest
      | pastStart =>
        have h2 := create_not_created (by rw [hres]; rfl : _)
        rw [hres] at h2
        have h3 : s2 = s := by simpa using h2
        simp only [assignedIds, hres, List.foldl_cons, applyOp]
        rw [h3]
        exact ih s hrest
      | conflict c =>
        have h2 := create_not_created (by rw [hres]; rfl : _)
        rw [hres] at h2
        have h3 : s2 = s := by simpa using h2
        simp only [assignedIds, hres, List.foldl_cons, applyOp]
        rw [h3]
        exact ih s hrest
      | internalError =>
        have h2 := create_not_created (by rw [hres]; rfl : _)
        rw [hres] at h2
        have h3 : s2 = s := by simpa using h2
        simp only [assignedIds, hres, List.foldl_cons, applyOp]
        rw [h3]
        exact ih s hrest

/-- Store preservation on any failing create (app.js variant). -/
lemma app_create_not_created {pd : String → Option Int} {nowMs : Int}
    {s : Store} {rid : Option ℚ} {st fin : JsValue}
    (h : (appCreateReservation pd nowMs s rid st fin).1.isCreated = false) :
    (appCreateReservation pd nowMs s rid st fin).2 = s := by
  rcases app_create_snd_eq pd nowMs s rid st fin with h1 | h1
  · rw [h1] at h
    cases h
  · exact h1

/-- Store preservation on any failing delete (app.js variant). -/
lemma app_delete_not_deleted {s : Store} {rid ridNum : Option ℚ}
    (h : (appDeleteReservation s rid ridNum).1.isDeleted = false) :
    (appDeleteReservation s rid ridNum).2 = s := by
  rcases app_delete_snd_eq s rid ridNum with h1 | h1
  · rw [h1] at h
    cases h
  · exact h1

/-- app.js `loadRoom` 404s exactly on non-finite, below-range, or above-range
numeric room ids. -/
lemma loadRoomApp_of_out {rooms : List Room} {rid : Option ℚ}
    (h : rid = none ∨ ∃ q, rid = some q ∧ (q < 1 ∨ (rooms.length : ℚ) < q)) :
    loadRoomApp rooms rid = none := by
  rcases h with rfl | ⟨q, rfl, hq⟩
  · rfl
  · have hcond : (decide (q < 1) || decide ((rooms.length : ℚ) < q)) = true := by
      rcases hq with hq | hq <;> simp [hq]
    unfold loadRoomApp
    simp only [hcond, if_true]

/-- When app.js `loadRoom` attached `undefined`, a create never reports
room-not-found and never touches the store: it fails one of the body checks
or faults at the conflict-scan dereference. -/
lemma app_create_undef {pd : String → Option Int} {nowMs : Int} {s : Store}
    {rid : Option ℚ} {st fin : JsValue}
    (h : loadRoomApp s.rooms rid = some none) :
    (appCreateReservation pd nowMs s rid st fin).1 ≠ .roomNotFound ∧
      (appCreateReservation pd nowMs s rid st fin).2 = s := by
  unfold appCreateReservation
  simp only [h]
  constructor
  · repeat' split
    all_goals simp
  · repeat' split
    all_goals rfl

/-- When app.js `loadRoom` attached `undefined`, a delete never reports
room-not-found and never touches the store. -/
lemma app_delete_undef {s : Store} {rid ridNum : Option ℚ}
    (h : loadRoomApp s.rooms rid = some none) :
    (appDeleteReservation s rid ridNum).1 ≠ .roomNotFound ∧
      (appDeleteReservation s rid ridNum).2 = s := by
  unfold appDeleteReservation
  simp only [h]
  constructor
  · repeat' split
    all_goals simp
  · repeat' split
    all_goals rfl

/-- Minute truncation fixes every minute-aligned instant. -/
lemma normalizeToMinute_of_dvd {T : Int} (h : (60000 : Int) ∣ T) :
    normalizeToMinute T = T := by
  obtain ⟨k, rfl⟩ := h
  unfold normalizeToMinute
  rw [Int.mul_fdiv_cancel_left _ (by norm_num)]
  ring

/-! ## Small facts about `isValidInterval` -/

/-- A failed parse on the left falsifies `isValidInterval`. -/
lemma isValidInterval_none_left (y : Option Int) :
    isValidInterval none y = false := by
  cases y <;> rfl

/-- A failed parse on the right falsifies `isValidInterval`. -/
lemma isValidInterval_none_right (x : Option Int) :
    isValidInterval x none = false := by
  cases x <;> rfl

/-- A non-increasing pair falsifies `isValidInterval`. -/
lemma isValidInterval_of_le {a b : Int} (h : b ≤ a) :
    isValidInterval (some a) (some b) = false := by
  simp [isValidInterval]
  omega

/-! ## The claims -/

/-- C1: the claim says a create whose truncated duration exceeds 43,200,000
ms is rejected as TooLong with nothing stored. The code has no such check:
`isTooLong` exists in `src/utils/time_helpers.js` but no handler imports or
calls it, contradicting the repository's own README (over-12-hours → 400).
At the failing input — a valid, future, conflict-free interval of exactly
12 hours + 1 minute — the create succeeds and the reservation is stored. -/
theorem claim_C1 :
    isTooLong 0 43260000 = true ∧
    (createReservation pdLong 0 initRooms (some 1) (.str "S") (.str "E")).1
      = .created { id := 1, startMs := 0, endMs := 43260000 } ∧
    ∃ room ∈ (createReservation pdLong 0 initRooms
        (some 1) (.str "S") (.str "E")).2.rooms,
      ({ id := 1, startMs := 0, endMs := 43260000 } : Reservation)
        ∈ room.reservations := by
  refine ⟨rfl, by decide, ?_⟩
  decide

/-- C2: non-overlap invariant — in every store reachable from the initial
store by any sequence of create, delete and reset requests, no two distinct
reservations of the same room satisfy the overlap predicate. -/
theorem claim_C2 (ops : List Op) (room : Room)
    (hroom : room ∈ (runOps ops).rooms) (a b : Reservation)
    (ha : a ∈ room.reservations) (hb : b ∈ room.reservations) (hab : a ≠ b) :
    ¬ (a.startMs < b.endMs ∧ b.startMs < a.endMs) :=
  (goodStore_run ops room hroom).forall noOv_symm ha hb hab

/-- Witness for C2: after the two back-to-back creates of `opsTwo`, room 1
holds two distinct reservations, and the theorem applies to them. -/
theorem claim_C2_witness :
    room1AfterTwo ∈ (runOps opsTwo).rooms ∧
    resvA ∈ room1AfterTwo.reservations ∧ resvB ∈ room1AfterTwo.reservations ∧
    resvA ≠ resvB ∧
    ¬ (resvA.startMs < resvB.endMs ∧ resvB.startMs < resvA.endMs) :=
  ⟨by decide, by decide, by decide, by decide,
   claim_C2 opsTwo room1AfterTwo (by decide) resvA resvB
     (by decide) (by decide) (by decide)⟩

/-- C4, counterexample: the claim requires a parse failure (MalformedTime)
and a parsed-but-non-increasing interval (InvalidInterval) to map to two
distinct, distinguishable outcomes. The code returns the one identical
response — 400 with the same "Invalid times" body — for both: an
unparseable `start` ("X") and an equal-instants pair ("T","T") produce
equal outcomes, so a caller cannot branch on kind. -/
theorem claim_C4_counterexample :
    (createReservation pdBad 0 initRooms (some 1) (.str "X") (.str "E")).1
      = .invalidTimes ∧
    (createReservation pdBad 0 initRooms (some 1) (.str "T") (.str "T")).1
      = .invalidTimes ∧
    (createReservation pdBad 0 initRooms (some 1) (.str "X") (.str "E")).1
      = (createReservation pdBad 0 initRooms
          (some 1) (.str "T") (.str "T")).1 := by
  refine ⟨by decide, by decide, by decide⟩

/-- C4, amended: with the room found and both fields present, a parse
failure on either field and a parsed but non-increasing interval are all
rejected with the same single pre-truncation invalid-times outcome (the
code's one 400 "Invalid times" response); the store is untouched. The two
error classes of the claim are not distinguishable by the caller. -/
theorem claim_C4_amended {pd : String → Option Int} {nowMs : Int} {s : Store}
    {q : ℚ} {room : Room} {st fin : JsValue}
    (hroom : getRoomById s.rooms q = some room)
    (hst : st.truthy = true) (hen : fin.truthy = true)
    (hbad : parseIsoToMs pd st = none ∨ parseIsoToMs pd fin = none ∨
      ∃ a b, parseIsoToMs pd st = some a ∧ parseIsoToMs pd fin = some b ∧
        b ≤ a) :
    createReservation pd nowMs s (some q) st fin = (.invalidTimes, s) := by
  apply create_of_invalidTimes hroom hst hen
  rcases hbad with h | h | ⟨a, b, ha, hb, hab⟩
  · rw [h, isValidInterval_none_left]
  · rw [h, isValidInterval_none_right]
  · rw [ha, hb, isValidInterval_of_le hab]

/-- Witness for the amended C4, at the unparseable-start input of the
counterexample. -/
theorem claim_C4_witness :
    getRoomById initRooms.rooms 1 = some room1 ∧
    (JsValue.str "X").truthy = true ∧ (JsValue.str "E").truthy = true ∧
    parseIsoToMs pdBad (.str "X") = none ∧
    createReservation pdBad 0 initRooms (some 1) (.str "X") (.str "E")
      = (.invalidTimes, initRooms) :=
  ⟨by decide, rfl, rfl, rfl,
   claim_C4_amended
     (by decide : getRoomById initRooms.rooms 1 = some room1)
     rfl rfl (Or.inl rfl)⟩

/-- C5: atomicity on failure. Any create that does not end in the 201
created outcome, and any delete that does not end in the deleted outcome,
returns the store exactly as it was — in particular no room's reservation
list changes and the reservation-id counter (a `Store` field) is not
advanced. Holds for both the router handlers and the `app.js` handlers. -/
theorem claim_C5 (pd : String → Option Int) (nowMs : Int) (s : Store)
    (rid ridNum : Option ℚ) (st fin : JsValue) :
    ((createReservation pd nowMs s rid st fin).1.isCreated = false →
      (createReservation pd nowMs s rid st fin).2 = s) ∧
    ((deleteReservation s rid ridNum).1.isDeleted = false →
      (deleteReservation s rid ridNum).2 = s) ∧
    ((appCreateReservation pd nowMs s rid st fin).1.isCreated = false →
      (appCreateReservation pd nowMs s rid st fin).2 = s) ∧
    ((appDeleteReservation s rid ridNum).1.isDeleted = false →
      (appDeleteReservation s rid ridNum).2 = s) :=
  ⟨create_not_created, delete_not_deleted,
   app_create_not_created, app_delete_not_deleted⟩

/-- Witness for C5: a create failing its missing-field check and a delete
failing its not-found check leave the initial store unchanged. -/
theorem claim_C5_witness :
    (createReservation pdBad 0 initRooms (some 1)
      (.str "") (.str "E")).1.isCreated = false ∧
    (createReservation pdBad 0 initRooms (some 1) (.str "") (.str "E")).2
      = initRooms ∧
    (deleteReservation initRooms (some 1) (some 1)).1.isDeleted = false ∧
    (deleteReservation initRooms (some 1) (some 1)).2 = initRooms :=
  ⟨by decide,
   (claim_C5 pdBad 0 initRooms (some 1) (some 1) (.str "") (.str "E")).1
     (by decide),
   by decide,
   (claim_C5 pdBad 0 initRooms (some 1) (some 1) (.str "") (.str "E")).2.1
     (by decide)⟩

/-- C7: truncation collapse — when both instants parse, the raw interval is
strictly increasing, but minute truncation collapses it (truncated end not
after truncated start), the create is rejected by the post-normalization
re-check with the distinct invalid-after-normalization outcome, and the
store is untouched. -/
theorem claim_C7 {pd : String → Option Int} {nowMs : Int} {s : Store}
    {q : ℚ} {room : Room} {st fin : JsValue} {rawS rawE : Int}
    (hroom : getRoomById s.rooms q = some room)
    (hst : st.truthy = true) (hen : fin.truthy = true)
    (hps : parseIsoToMs pd st = some rawS)
    (hpe : parseIsoToMs pd fin = some rawE)
    (hpre : rawS < rawE)
    (hcollapse : normalizeToMinute rawE ≤ normalizeToMinute rawS) :
    createReservation pd nowMs s (some q) st fin
      = (.invalidAfterNormalization, s) :=
  create_of_afterNorm hroom hst hen hps hpe hpre hcollapse

/-- Witness for C7: start at 15 min 30 s and end at 15 min 45 s — raw
end strictly after raw start, both truncating to minute 15. -/
theorem claim_C7_witness :
    getRoomById initRooms.rooms 1 = some room1 ∧
    parseIsoToMs pdCollapse (.str "S") = some 930000 ∧
    parseIsoToMs pdCollapse (.str "E") = some 945000 ∧
    (930000 : Int) < 945000 ∧
    normalizeToMinute 945000 ≤ normalizeToMinute 930000 ∧
    createReservation pdCollapse 0 initRooms (some 1) (.str "S") (.str "E")
      = (.invalidAfterNormalization, initRooms) :=
  ⟨by decide, rfl, rfl, by decide, by decide,
   claim_C7 (by decide : getRoomById initRooms.rooms 1 = some room1)
     rfl rfl rfl rfl (by decide) (by decide)⟩

/-- C10: a present but falsy `start` or `end` — the empty string, the number
0, `false`, or `null` — is classified as the missing-field failure before
any time parsing happens: the outcome is missingField for every parse
oracle, never the invalid-times outcome, and the store is untouched. The
last four conjuncts record that precisely these JavaScript values are
falsy. -/
theorem claim_C10 {pd : String → Option Int} {nowMs : Int} {s : Store}
    {q : ℚ} {room : Room} (st fin : JsValue)
    (hroom : getRoomById s.rooms q = some room)
    (hmiss : st.truthy = false ∨ fin.truthy = false) :
    createReservation pd nowMs s (some q) st fin = (.missingField, s) ∧
    (JsValue.str "").truthy = false ∧ (JsValue.num 0).truthy = false ∧
    (JsValue.bool false).truthy = false ∧ JsValue.null.truthy = false :=
  ⟨create_of_missing hroom hmiss, rfl, rfl, rfl, rfl⟩

/-- Witness for C10: an empty-string `start` yields missingField — not the
invalid-times outcome that a parse attempt would have produced. -/
theorem claim_C10_witness :
    getRoomById initRooms.rooms 1 = some room1 ∧
    (JsValue.str "").truthy = false ∧
    createReservation pdBad 0 initRooms (some 1) (.str "") (.str "E")
      = (.missingField, initRooms) :=
  ⟨by decide, rfl,
   (claim_C10 (.str "") (.str "E")
     (by decide : getRoomById initRooms.rooms 1 = some room1)
     (Or.inl rfl)).1⟩

/-- C8: past-start boundary — once the interval checks pass, a truncated
start strictly before the truncated current instant is rejected as the
past-start outcome with the store untouched, while a truncated start equal
to the truncated current instant (starting exactly "now", minute-aligned)
is never rejected as past. -/
theorem claim_C8 {pd : String → Option Int} {nowMs : Int} {s : Store}
    {q : ℚ} {room : Room} {st fin : JsValue} {rawS rawE : Int}
    (hroom : getRoomById s.rooms q = some room)
    (hst : st.truthy = true) (hen : fin.truthy = true)
    (hps : parseIsoToMs pd st = some rawS)
    (hpe : parseIsoToMs pd fin = some rawE)
    (hpre : rawS < rawE)
    (hpost : normalizeToMinute rawS < normalizeToMinute rawE) :
    (normalizeToMinute rawS < normalizeToMinute nowMs →
      createReservation pd nowMs s (some q) st fin = (.pastStart, s)) ∧
    (normalizeToMinute rawS = normalizeToMinute nowMs →
      (createReservation pd nowMs s (some q) st fin).1 ≠ .pastStart) := by
  constructor
  · exact fun hpast =>
      create_of_pastStart hroom hst hen hps hpe hpre hpost hpast
  · intro heq
    have hnp : ¬ normalizeToMinute rawS < normalizeToMinute nowMs := by omega
    have hc := create_of_checks hroom hst hen hps hpe hpre hpost hnp
    rw [hc]
    cases hfind : room.reservations.find?
        (fun r => intervalsOverlap (normalizeToMinute rawS)
          (normalizeToMinute rawE) r.startMs r.endMs) with
    | some c => simp
    | none => simp

/-- Witness for C8: with start at minute 1 and end at minute 2, a request
issued at minute 2 is past-start, while a request issued at minute 1 + 30 s
(same truncated minute as the start) is not rejected as past. -/
theorem claim_C8_witness :
    normalizeToMinute 60000 < normalizeToMinute 120000 ∧
    normalizeToMinute 60000 = normalizeToMinute 90000 ∧
    createReservation pdPast 120000 initRooms (some 1) (.str "S") (.str "E")
      = (.pastStart, initRooms) ∧
    (createReservation pdPast 90000 initRooms
      (some 1) (.str "S") (.str "E")).1 ≠ .pastStart :=
  ⟨by decide, by decide,
   (claim_C8 (by decide : getRoomById initRooms.rooms 1 = some room1)
     (rfl : (JsValue.str "S").truthy = true)
     (rfl : (JsValue.str "E").truthy = true)
     (rfl : parseIsoToMs pdPast (.str "S") = some 60000)
     (rfl : parseIsoToMs pdPast (.str "E") = some 120000)
     (by decide : (60000 : Int) < 120000)
     (by decide : normalizeToMinute 60000 < normalizeToMinute 120000)).1
     (by decide : normalizeToMinute 60000 < normalizeToMinute 120000),
   (claim_C8 (by decide : getRoomById initRooms.rooms 1 = some room1)
     (rfl : (JsValue.str "S").truthy = true)
     (rfl : (JsValue.str "E").truthy = true)
     (rfl : parseIsoToMs pdPast (.str "S") = some 60000)
     (rfl : parseIsoToMs pdPast (.str "E") = some 120000)
     (by decide : (60000 : Int) < 120000)
     (by decide : normalizeToMinute 60000 < normalizeToMinute 120000)).2
     (by decide : normalizeToMinute 60000 = normalizeToMinute 90000)⟩

/-- C3, counterexample: the claim says every roomId text not denoting an
integer in 1..10 fails with RoomNotFound. In the `app.js` variant the text
"1.5" — `Number` value 3/2, denominator 2, so no integer — passes the range
guard, the room lookup attaches `undefined`, and a create with a fully valid
body, the list request, and a delete all end in the generic internal
failure, not RoomNotFound (the store still unchanged). -/
theorem claim_C3_counterexample :
    (Rat.divInt 3 2).den = 2 ∧
    (appCreateReservation pdHour 0 initRooms (some (Rat.divInt 3 2))
      (.str "S") (.str "E")).1 = .internalError ∧
    (appCreateReservation pdHour 0 initRooms (some (Rat.divInt 3 2))
      (.str "S") (.str "E")).1 ≠ .roomNotFound ∧
    (appCreateReservation pdHour 0 initRooms (some (Rat.divInt 3 2))
      (.str "S") (.str "E")).2 = initRooms ∧
    appListReservations initRooms (some (Rat.divInt 3 2)) = .internalError ∧
    (appDeleteReservation initRooms (some (Rat.divInt 3 2)) (some 1)).1
      = .internalError := by
  refine ⟨rfl, by decide, by decide, by decide, by decide, by decide⟩

/-- C3, amended: in every reachable store, a roomId that is NaN or denotes
no integer in 1..10 makes the router-variant create, list and delete fail
with RoomNotFound and leave the store unchanged; the app.js variant does the
same whenever the numeric value is NaN or outside the range [1, 10] — only
a fractional value inside the range (the counterexample) escapes to the
generic internal failure there. -/
theorem claim_C3_amended (ops : List Op) (rid : Option ℚ)
    (hq : rid = none ∨ ∃ q, rid = some q ∧
      ∀ n : ℕ, 1 ≤ n → n ≤ 10 → (n : ℚ) ≠ q) :
    (∀ pd nowMs st fin, createReservation pd nowMs (runOps ops) rid st fin
        = (.roomNotFound, runOps ops)) ∧
    listReservations (runOps ops) rid = .roomNotFound ∧
    (∀ ridNum, deleteReservation (runOps ops) rid ridNum
        = (.roomNotFound, runOps ops)) ∧
    (∀ pd nowMs st fin,
      (rid = none ∨ ∃ q, rid = some q ∧
        (q < 1 ∨ (((runOps ops).rooms.length : ℚ) < q))) →
      appCreateReservation pd nowMs (runOps ops) rid st fin
        = (.roomNotFound, runOps ops)) ∧
    ((rid = none ∨ ∃ q, rid = some q ∧
        (q < 1 ∨ (((runOps ops).rooms.length : ℚ) < q))) →
      appListReservations (runOps ops) rid = .roomNotFound) ∧
    (∀ ridNum,
      (rid = none ∨ ∃ q, rid = some q ∧
        (q < 1 ∨ (((runOps ops).rooms.length : ℚ) < q))) →
      appDeleteReservation (runOps ops) rid ridNum
        = (.roomNotFound, runOps ops)) := by
  have hrouter : ∀ pd nowMs st fin,
      createReservation pd nowMs (runOps ops) rid st fin
        = (.roomNotFound, runOps ops) := by
    intro pd nowMs st fin
    rcases hq with rfl | ⟨q, rfl, hq2⟩
    · rfl
    · have hn := getRoomById_none_of_shape (roomsShape_run ops) hq2
      unfold createReservation
      simp only [hn]
  refine ⟨hrouter, ?_, ?_, ?_, ?_, ?_⟩
  · rcases hq with rfl | ⟨q, rfl, hq2⟩
    · rfl
    · have hn := getRoomById_none_of_shape (roomsShape_run ops) hq2
      unfold listReservations
      simp only [hn]
  · intro ridNum
    rcases hq with rfl | ⟨q, rfl, hq2⟩
    · rfl
    · have hn := getRoomById_none_of_shape (roomsShape_run ops) hq2
      unfold deleteReservation
      simp only [hn]
  · intro pd nowMs st fin hout
    have hn := loadRoomApp_of_out hout
    unfold appCreateReservation
    simp only [hn]
  · intro hout
    have hn := loadRoomApp_of_out hout
    unfold appListReservations
    simp only [hn]
  · intro ridNum hout
    have hn := loadRoomApp_of_out hout
    unfold appDeleteReservation
    simp only [hn]

/-- Witness for the amended C3: roomId 20 — an integer outside 1..10 — is
RoomNotFound for every variant and operation, with the store unchanged. -/
theorem claim_C3_witness :
    ((some (20 : ℚ) : Option ℚ) = none ∨ ∃ q, (some (20 : ℚ) : Option ℚ)
      = some q ∧ ∀ n : ℕ, 1 ≤ n → n ≤ 10 → (n : ℚ) ≠ q) ∧
    createReservation pdHour 0 (runOps []) (some 20) (.str "S") (.str "E")
      = (.roomNotFound, runOps []) ∧
    listReservations (runOps []) (some 20) = .roomNotFound ∧
    appCreateReservation pdHour 0 (runOps []) (some 20) (.str "S") (.str "E")
      = (.roomNotFound, runOps []) := by
  have hq20 : (some (20 : ℚ) : Option ℚ) = none ∨ ∃ q, (some (20 : ℚ) :
      Option ℚ) = some q ∧ ∀ n : ℕ, 1 ≤ n → n ≤ 10 → (n : ℚ) ≠ q := by
    refine Or.inr ⟨20, rfl, fun n h1 h2 he => ?_⟩
    have hc : ((n : ℕ) : ℚ) = ((20 : ℕ) : ℚ) := by exact_mod_cast he
    have := Nat.cast_injective hc
    omega
  refine ⟨hq20, (claim_C3_amended [] (some 20) hq20).1 pdHour 0 _ _,
    (claim_C3_amended [] (some 20) hq20).2.1,
    (claim_C3_amended [] (some 20) hq20).2.2.2.1 pdHour 0 _ _ ?_⟩
  exact Or.inr ⟨20, rfl, Or.inr (by decide)⟩

/-- C9: id-space monotonicity — along any reset-free run the ids handed out
by successful creates are exactly 1, 2, 3, … in order (strictly increasing
from 1 and never repeated, so an id freed by deletion is never reassigned),
and after a successful delete of a reservation from a room, repeating the
same delete on that room reports reservation-not-found. -/
theorem claim_C9 (ops : List Op) (hnr : ∀ op ∈ ops, op.isReset = false) :
    assignedIds initRooms ops
      = List.range' 1 (assignedIds initRooms ops).length ∧
    (assignedIds initRooms ops).Nodup ∧
    ∀ rid ridNum r s2,
      deleteReservation (runOps ops) rid ridNum = (.deleted r, s2) →
      (deleteReservation s2 rid ridNum).1 = .reservationNotFound := by
  obtain ⟨h1, -⟩ := assignedIds_spec ops initRooms hnr
  have hinit : initRooms.nextReservationId = 1 := rfl
  rw [hinit] at h1
  refine ⟨h1, ?_, ?_⟩
  · rw [h1]
    apply List.nodup_range'
    exact Nat.one_pos
  · intro rid ridNum r s2 hdel
    obtain ⟨q, room, rq, hrid, hroom, hridn, hrem, hs2⟩ :=
      delete_success_inv hdel
    subst hrid
    subst hridn
    have hids := storeIds_run ops
    have hnd : (room.reservations.map Reservation.id).Nodup :=
      (hids room (List.mem_of_find?_eq_some hroom)).1
    have hnosec := removeFirst_no_second hnd hrem
    have hroom2 : getRoomById s2.rooms q
        = some { room with reservations := (removeFirst room.reservations rq).2 } := by
      rw [hs2]
      exact getRoomById_update hroom (fun rm => rfl)
    unfold deleteReservation
    simp only [hroom2, removeFirst_of_no_match hnosec]

/-- Witness for C9: a create then a delete of reservation 1 — no reset —
hands out exactly the id list `[1]`. -/
theorem claim_C9_witness :
    (∀ op ∈ opsDel, op.isReset = false) ∧
    assignedIds initRooms opsDel
      = List.range' 1 (assignedIds initRooms opsDel).length ∧
    (assignedIds initRooms opsDel).Nodup :=
  ⟨by decide,
   (claim_C9 opsDel (by decide)).1,
   (claim_C9 opsDel (by decide)).2.1⟩

/-- C6: adjacency admissibility — for every minute-aligned non-past instant
`T`, creating `[T, T+30m)` and then `[T+30m, T+60m)` in the same room both
succeed from the initial store (no Conflict arises), and in general two
half-open intervals where one's end equals the other's start never satisfy
the overlap predicate. -/
theorem claim_C6 (T nowMs : Int) (hal : (60000 : Int) ∣ T)
    (hfut : normalizeToMinute nowMs ≤ T) :
    (createReservation (pdAdj T) nowMs initRooms (some 1)
        (.str "S1") (.str "E1") = (.created (adjRes1 T), adjStore1 T) ∧
      createReservation (pdAdj T) nowMs (adjStore1 T) (some 1)
        (.str "S2") (.str "E2") = (.created (adjRes2 T), adjStore2 T)) ∧
    (∀ x y z : Int, intervalsOverlap x y y z = false) ∧
    (∀ x y z : Int, intervalsOverlap y z x y = false) := by
  have h1 : normalizeToMinute T = T := normalizeToMinute_of_dvd hal
  have h2 : normalizeToMinute (T + 1800000) = T + 1800000 := by
    apply normalizeToMinute_of_dvd
    obtain ⟨k, hk⟩ := hal
    exact ⟨k + 30, by rw [hk]; ring⟩
  have h3 : normalizeToMinute (T + 3600000) = T + 3600000 := by
    apply normalizeToMinute_of_dvd
    obtain ⟨k, hk⟩ := hal
    exact ⟨k + 60, by rw [hk]; ring⟩
  have hn1 : initRooms.nextReservationId = 1 := rfl
  have hroom1 : getRoomById initRooms.rooms 1 = some room1 := by decide
  refine ⟨⟨?_, ?_⟩, ?_, ?_⟩
  · rw [create_of_checks hroom1
      (rfl : (JsValue.str "S1").truthy = true)
      (rfl : (JsValue.str "E1").truthy = true)
      (rfl : parseIsoToMs (pdAdj T) (.str "S1") = some T)
      (rfl : parseIsoToMs (pdAdj T) (.str "E1") = some (T + 1800000))
      (by omega : T < T + 1800000)
      (show normalizeToMinute T < normalizeToMinute (T + 1800000) by
        rw [h1, h2]; omega)
      (show ¬ normalizeToMinute T < normalizeToMinute nowMs by
        rw [h1]; omega)]
    simp [room1, hn1, h1, h2, adjRes1, adjStore1, adjPush1]
    rfl
  · have hroom2 : getRoomById (adjStore1 T).rooms 1 = some (adjPush1 T room1) :=
      @getRoomById_update initRooms.rooms 1 room1 (adjPush1 T) hroom1
        (fun rm => rfl)
    rw [create_of_checks hroom2
      (rfl : (JsValue.str "S2").truthy = true)
      (rfl : (JsValue.str "E2").truthy = true)
      (rfl : parseIsoToMs (pdAdj T) (.str "S2") = some (T + 1800000))
      (rfl : parseIsoToMs (pdAdj T) (.str "E2") = some (T + 3600000))
      (by omega : T + 1800000 < T + 3600000)
      (show normalizeToMinute (T + 1800000) < normalizeToMinute (T + 3600000) by
        rw [h2, h3]; omega)
      (show ¬ normalizeToMinute (T + 1800000) < normalizeToMinute nowMs by
        rw [h2]; omega)]
    simp [room1, h2, h3, adjRes1, adjRes2, adjStore1, adjStore2, adjPush1,
      adjPush2, List.find?, intervalsOverlap]
    rfl
  · intro x y z
    simp [intervalsOverlap]
  · intro x y z
    simp [intervalsOverlap]

/-- Witness for C6: at `T` = minute 1 with the clock at the epoch, both
back-to-back creates succeed. -/
theorem claim_C6_witness :
    ((60000 : Int) ∣ 60000) ∧ normalizeToMinute 0 ≤ 60000 ∧
    createReservation (pdAdj 60000) 0 initRooms (some 1) (.str "S1")
        (.str "E1") = (.created (adjRes1 60000), adjStore1 60000) ∧
    createReservation (pdAdj 60000) 0 (adjStore1 60000) (some 1) (.str "S2")
        (.str "E2") = (.created (adjRes2 60000), adjStore2 60000) :=
  ⟨⟨1, by norm_num⟩, by decide,
   (claim_C6 60000 0 ⟨1, by norm_num⟩ (by decide)).1.1,
   (claim_C6 60000 0 ⟨1, by norm_num⟩ (by decide)).1.2⟩
